import Mathlib

/-!
Verification development for the `rustifile` reader core
(`src/readers/{mod,errors,csv,jsonstream}.rs`).

Files are modelled as byte lists (`List Nat`, each entry a byte value).
The reader state machines (`CsvReader.read_item`, `JsonStreamReader.read_item`,
`CsvReader.init_reader`, `JsonStreamReader.init`) are translated directly from
the Rust source.  The row parsing and field coercion performed inside the
`csv` / `serde_json` dependencies are black boxes for the repository, and are
modelled from the specification's description of them (each such definition is
marked `Modelled from the spec:`).
-/

/-- Bytes of a string, for ASCII text (every character of the argument is
expected to be ASCII, which holds for all uses in this file). -/
def ascii (s : String) : List Nat :=
  s.data.map (fun c => c.toNat)

/-- Numeric payload of a JSON-style number: an exact integer, or a decimal
value `m * 10 ^ e` (standing for the float payload of `serde_json::Number`). -/
inductive JNum where
  | int (i : Int)
  | dec (m : Int) (e : Int)
deriving DecidableEq, Repr

/-- The semi-structured value model: `serde_json::Value`. -/
inductive Value where
  | null
  | bool (b : Bool)
  | num (n : JNum)
  | str (s : List Nat)
  | arr (xs : List Value)
  | obj (fields : List (List Nat × Value))
deriving Repr

/-- The reader error taxonomy from `src/readers/errors.rs`: `CsvError`,
`JsonError` and `IoError` wrap library errors (payloads abstracted away);
`InitializationError` carries a static message. -/
inductive ReaderError where
  | csvError
  | jsonError
  | ioError
  | initializationError (msg : String)
deriving DecidableEq, Repr

/-- A file system: maps a path to the byte content of the file there, or
`none` when opening the file fails. -/
def FS : Type := String → Option (List Nat)

/-- Whether a byte is an ASCII decimal digit. -/
def isDigit (b : Nat) : Bool :=
  decide (48 ≤ b ∧ b ≤ 57)

/-- Numeric value of a list of ASCII digit bytes. -/
def digitsVal (ds : List Nat) : Nat :=
  ds.foldl (fun a b => a * 10 + (b - 48)) 0

/-- Longest prefix of digit bytes, and the remainder. -/
def spanDigits : List Nat → List Nat × List Nat
  | [] => ([], [])
  | b :: rest =>
    if isDigit b then
      let (ds, r) := spanDigits rest
      (b :: ds, r)
    else ([], b :: rest)

/-- Modelled from the spec: whether the field text parses as a standard
integer numeral (optional sign, then at least one digit). -/
def isIntNumeral (f : List Nat) : Bool :=
  match f with
  | 43 :: rest => !rest.isEmpty && rest.all isDigit
  | 45 :: rest => !rest.isEmpty && rest.all isDigit
  | _ => !f.isEmpty && f.all isDigit

/-- Integer value of an integer numeral. -/
def intNumeralVal (f : List Nat) : Int :=
  match f with
  | 43 :: rest => (digitsVal rest : Int)
  | 45 :: rest => -(digitsVal rest : Int)
  | _ => (digitsVal f : Int)

/-- Whether the bytes form a valid exponent part: `e` or `E`, an optional
sign, then at least one digit, consuming everything. -/
def isExpTail (f : List Nat) : Bool :=
  match f with
  | b :: rest =>
    if b = 101 || b = 69 then
      match rest with
      | 43 :: ds => !ds.isEmpty && ds.all isDigit
      | 45 :: ds => !ds.isEmpty && ds.all isDigit
      | ds => !ds.isEmpty && ds.all isDigit
    else false
  | [] => false

/-- Modelled from the spec: unsigned body of a floating-point numeral
(digits, an optional fractional part, an optional exponent; a lone dot is
rejected). -/
def isFloatBody (f : List Nat) : Bool :=
  let (ip, r1) := spanDigits f
  match r1 with
  | [] => !ip.isEmpty
  | 46 :: r2 =>
    let (fp, r3) := spanDigits r2
    (!ip.isEmpty || !fp.isEmpty) && (r3.isEmpty || isExpTail r3)
  | r => !ip.isEmpty && isExpTail r

/-- Modelled from the spec: whether the field text parses as a standard
floating-point numeral (optional sign, then a float body). -/
def isFloatNumeral (f : List Nat) : Bool :=
  match f with
  | 43 :: rest => isFloatBody rest
  | 45 :: rest => isFloatBody rest
  | _ => isFloatBody f

/-- Signed value of an exponent tail (0 when absent). -/
def expTailVal (f : List Nat) : Int :=
  match f with
  | _e :: 43 :: ds => (digitsVal ds : Int)
  | _e :: 45 :: ds => -(digitsVal ds : Int)
  | _e :: ds => (digitsVal ds : Int)
  | [] => 0

/-- Negation of a numeric payload. -/
def negJNum : JNum → JNum
  | JNum.int i => JNum.int (-i)
  | JNum.dec m e => JNum.dec (-m) e

/-- Decimal value of an unsigned float body. -/
def floatBodyVal (f : List Nat) : JNum :=
  let (ip, r1) := spanDigits f
  match r1 with
  | 46 :: r2 =>
    let (fp, r3) := spanDigits r2
    JNum.dec ((digitsVal ip * 10 ^ fp.length + digitsVal fp : Nat) : Int)
      (expTailVal r3 - (fp.length : Int))
  | r => JNum.dec ((digitsVal ip : Nat) : Int) (expTailVal r)

/-- Decimal value of a floating-point numeral. -/
def floatNumeralVal (f : List Nat) : JNum :=
  match f with
  | 43 :: rest => floatBodyVal rest
  | 45 :: rest => negJNum (floatBodyVal rest)
  | _ => floatBodyVal f

/-- Modelled from the spec: the delimited-text reader's field coercion
(spec 4.2 and the doc comment of `CsvReader::read_item`): numerals become
`Number`, the exact literals `true` and `false` become `Bool`, and any other
text, the empty string included, stays `String` unchanged. -/
def coerceField (f : List Nat) : Value :=
  if isIntNumeral f then Value.num (JNum.int (intNumeralVal f))
  else if isFloatNumeral f then Value.num (floatNumeralVal f)
  else if f = ascii ("true") then Value.bool true
  else if f = ascii ("false") then Value.bool false
  else Value.str f

/-- Split a byte list on a delimiter byte (auxiliary, with accumulator). -/
def splitOnByteAux (d : Nat) : List Nat → List Nat → List (List Nat)
  | [], acc => [acc.reverse]
  | b :: rest, acc =>
    if b = d then acc.reverse :: splitOnByteAux d rest []
    else splitOnByteAux d rest (b :: acc)

/-- Split a byte list on a delimiter byte. -/
def splitOnByte (d : Nat) (line : List Nat) : List (List Nat) :=
  splitOnByteAux d line []

/-- Modelled from the spec: split file content into records on the newline
byte, ignoring a trailing newline. -/
def splitRecords (content : List Nat) : List (List Nat) :=
  let xs := splitOnByte 10 content
  if xs.getLast? = some [] then xs.dropLast else xs

/-- Modelled from the spec: the row-oriented parse of the whole file with a
given delimiter byte: each record is split into fields on that byte. -/
def parseCsv (d : Nat) (content : List Nat) : List (List (List Nat)) :=
  (splitRecords content).map (splitOnByte d)

/-- The delimiter byte the reader is built with, from `CsvReader::init_reader`
(`src/readers/csv.rs` lines 54-58): the first byte of the configured
delimiter, or the comma byte 44 when the configuration is empty. -/
def effectiveDelimiterByte (delimiter : List Nat) : Nat :=
  match delimiter with
  | [] => 44
  | b :: _ => b

/-- Row parse of file content under a delimiter configuration value. -/
def csvParseConfig (delimiter : List Nat) (content : List Nat) : List (List (List Nat)) :=
  parseCsv (effectiveDelimiterByte delimiter) content

/-- The internal row reader built by `CsvReader::init_reader`: the header row,
the remaining data rows, and the flexibility flag it was configured with
(the `csv::Reader` value, with the part of its behavior the claims need). -/
structure CsvHandle where
  headers : List (List Nat)
  rows : List (List (List Nat))
  flexible : Bool

/-- Modelled from the spec: a record zips the header names with the coerced
field values (spec 4.2, "zip header names with field strings into an
Object"); `List.zip` truncates at the shorter list, so in flexible mode
missing fields are dropped and extra fields ignored. -/
def zipRecord (headers : List (List Nat)) (row : List (List Nat)) : List (List Nat × Value) :=
  headers.zip (row.map coerceField)

/-- Modelled from the spec: the result `deserialize().next()` produces for
one data row: a record when the row matches the header length or the reader
is flexible, and a recoverable per-row error otherwise (spec 4.2). -/
def rowResult (headers : List (List Nat)) (flexible : Bool) (row : List (List Nat)) :
    Except ReaderError Value :=
  if flexible = true ∨ row.length = headers.length then
    Except.ok (Value.obj (zipRecord headers row))
  else
    Except.error ReaderError.csvError

/-- One step of the internal row reader: the next row's result and the
advanced reader, or `none` at end of input. -/
def CsvHandle.next (h : CsvHandle) : Option (Except ReaderError Value) × CsvHandle :=
  match h.rows with
  | [] => (none, h)
  | row :: rest => (some (rowResult h.headers h.flexible row), { h with rows := rest })

/-- The `CsvReader` struct (`src/readers/csv.rs` lines 19-39): configuration
fields plus the lazily created internal reader and the `_initialized` flag. -/
structure CsvReader where
  delimiter : List Nat
  flexible : Bool
  file_path : String
  _reader : Option CsvHandle
  _initialized : Bool

/-- The `CsvReader::init_reader` method (`src/readers/csv.rs` lines 49-66):
open the file (an `IoError` if that fails), build the row reader from the
effective delimiter byte and the flexibility flag, with the first parsed row
as header, and store it in `_reader`. -/
def CsvReader.init_reader (s : CsvReader) (fs : FS) : Except ReaderError CsvReader :=
  match fs s.file_path with
  | none => Except.error ReaderError.ioError
  | some content =>
    let rows := csvParseConfig s.delimiter content
    Except.ok { s with _reader := some {
      headers := rows.headD [], rows := rows.tail, flexible := s.flexible } }

/-- The final `match &mut self._reader` of `CsvReader::read_item`
(`src/readers/csv.rs` lines 104-115): read the next row result from the
internal reader, or report the fallback `InitializationError` when the
internal reader is absent. -/
def CsvReader.readFromReader (s : CsvReader) : Option (Except ReaderError Value) × CsvReader :=
  match s._reader with
  | some h =>
    let (r, h2) := h.next
    (r, { s with _reader := some h2 })
  | none =>
    (some (Except.error (ReaderError.initializationError ("Failed to initialize reader"))), s)

/-- The `CsvReader::read_item` method (`src/readers/csv.rs` lines 87-116):
when the internal reader is absent, try `init_reader`; on failure return the
error the first time (`_initialized` false) and `none` afterwards; otherwise
read the next row result. -/
def CsvReader.read_item (s : CsvReader) (fs : FS) :
    Option (Except ReaderError Value) × CsvReader :=
  match s._reader with
  | none =>
    match CsvReader.init_reader s fs with
    | Except.error e =>
      if s._initialized then (none, s)
      else (some (Except.error e), { s with _initialized := true })
    | Except.ok s2 => CsvReader.readFromReader s2
  | some _ => CsvReader.readFromReader s

/-- Results of `n` successive `read_item` calls on a `CsvReader`, against a
fixed file system. -/
def csvRun : Nat → CsvReader → FS → List (Option (Except ReaderError Value))
  | 0, _, _ => []
  | n + 1, s, fs =>
    let (r, s2) := CsvReader.read_item s fs
    r :: csvRun n s2 fs

/-- Skip JSON whitespace bytes (space, tab, newline, carriage return). -/
def skipWs : List Nat → List Nat
  | [] => []
  | b :: rest =>
    if b = 32 || b = 9 || b = 10 || b = 13 then skipWs rest
    else b :: rest

/-- Parse a JSON string body after the opening quote: the content bytes and
the remainder after the closing quote (escape sequences are outside the
modelled subset). -/
def parseJStringAux : List Nat → Option (List Nat × List Nat)
  | [] => none
  | 34 :: rest => some ([], rest)
  | 92 :: _ => none
  | b :: rest =>
    match parseJStringAux rest with
    | some (s, r) => some (b :: s, r)
    | none => none

/-- Parse an optional exponent part of a JSON number: its signed value and
the remainder, or `none` when no well-formed exponent starts here. -/
def parseExpOpt (input : List Nat) : Option (Int × List Nat) :=
  match input with
  | b :: rest =>
    if b = 101 || b = 69 then
      match rest with
      | 43 :: more =>
        let (ds, r) := spanDigits more
        if ds.isEmpty then none else some ((digitsVal ds : Int), r)
      | 45 :: more =>
        let (ds, r) := spanDigits more
        if ds.isEmpty then none else some (-(digitsVal ds : Int), r)
      | more =>
        let (ds, r) := spanDigits more
        if ds.isEmpty then none else some ((digitsVal ds : Int), r)
    else none
  | [] => none

/-- Parse the unsigned body of a JSON number: an integer when there is no
fractional part and no exponent, a decimal value otherwise. -/
def parseJNumBody (input : List Nat) : Option (JNum × List Nat) :=
  let (ip, r1) := spanDigits input
  if ip.isEmpty then none
  else
    match r1 with
    | 46 :: r2 =>
      let (fp, r3) := spanDigits r2
      if fp.isEmpty then none
      else
        let m : Int := ((digitsVal ip * 10 ^ fp.length + digitsVal fp : Nat) : Int)
        match parseExpOpt r3 with
        | some (e, r4) => some (JNum.dec m (e - (fp.length : Int)), r4)
        | none => some (JNum.dec m (-(fp.length : Int)), r3)
    | _ =>
      match parseExpOpt r1 with
      | some (e, r2) => some (JNum.dec ((digitsVal ip : Nat) : Int) e, r2)
      | none => some (JNum.int ((digitsVal ip : Nat) : Int), r1)

/-- Parse a JSON number (optional leading minus, then a number body). -/
def parseJNum (input : List Nat) : Option (JNum × List Nat) :=
  match input with
  | 45 :: rest =>
    match parseJNumBody rest with
    | some (n, r) => some (negJNum n, r)
    | none => none
  | _ => parseJNumBody input

mutual

/-- Modelled from the spec: parse one structural JSON value (spec 4.3, the
structural streaming parser of the line-delimited-JSON reader), by
brace/bracket/quote structure; fuel bounds the recursion depth. -/
def parseJVal : Nat → List Nat → Option (Value × List Nat)
  | 0, _ => none
  | fuel + 1, input =>
    match skipWs input with
    | [] => none
    | 123 :: rest =>
      match skipWs rest with
      | 125 :: r => some (Value.obj [], r)
      | r2 =>
        match parseJMembers fuel r2 with
        | some (ms, r3) => some (Value.obj ms, r3)
        | none => none
    | 91 :: rest =>
      match skipWs rest with
      | 93 :: r => some (Value.arr [], r)
      | r2 =>
        match parseJElems fuel r2 with
        | some (es, r3) => some (Value.arr es, r3)
        | none => none
    | 34 :: rest =>
      match parseJStringAux rest with
      | some (s, r) => some (Value.str s, r)
      | none => none
    | 116 :: 114 :: 117 :: 101 :: r => some (Value.bool true, r)
    | 102 :: 97 :: 108 :: 115 :: 101 :: r => some (Value.bool false, r)
    | 110 :: 117 :: 108 :: 108 :: r => some (Value.null, r)
    | inp =>
      match parseJNum inp with
      | some (n, r) => some (Value.num n, r)
      | none => none

/-- Parse the members of a JSON object after the opening brace, returning
them together with the remainder after the closing brace. -/
def parseJMembers : Nat → List Nat → Option (List (List Nat × Value) × List Nat)
  | 0, _ => none
  | fuel + 1, input =>
    match skipWs input with
    | 34 :: rest =>
      match parseJStringAux rest with
      | some (k, r1) =>
        match skipWs r1 with
        | 58 :: r2 =>
          match parseJVal fuel r2 with
          | some (v, r3) =>
            match skipWs r3 with
            | 44 :: r4 =>
              match parseJMembers fuel r4 with
              | some (ms, r5) => some ((k, v) :: ms, r5)
              | none => none
            | 125 :: r4 => some ([(k, v)], r4)
            | _ => none
          | none => none
        | _ => none
      | none => none
    | _ => none

/-- Parse the elements of a JSON array after the opening bracket, returning
them together with the remainder after the closing bracket. -/
def parseJElems : Nat → List Nat → Option (List Value × List Nat)
  | 0, _ => none
  | fuel + 1, input =>
    match parseJVal fuel input with
    | some (v, r1) =>
      match skipWs r1 with
      | 44 :: r2 =>
        match parseJElems fuel r2 with
        | some (es, r3) => some (v :: es, r3)
        | none => none
      | 93 :: r2 => some ([v], r2)
      | _ => none
    | none => none

end

/-- Modelled from the spec: the stream of JSON values the structural parser
yields over the file content, one `ok` per well-formed value in file order;
a malformed value yields one parse error (spec 4.3). -/
def jsonStreamParseAux : Nat → List Nat → List (Except Unit Value)
  | 0, _ => []
  | fuel + 1, input =>
    match skipWs input with
    | [] => []
    | rest =>
      match parseJVal (rest.length + 1) rest with
      | some (v, r) => Except.ok v :: jsonStreamParseAux fuel r
      | none => [Except.error ()]

/-- Stream parse of a whole file's byte content. -/
def jsonStreamParse (content : List Nat) : List (Except Unit Value) :=
  jsonStreamParseAux (content.length + 1) content

/-- The shared cursor of the JSON-stream reader: the `Arc<Mutex<...>>` cell
holding the streaming iterator, with its poison flag. -/
structure IterCell where
  poisoned : Bool
  items : List (Except Unit Value)

/-- The `JsonStreamReader` struct (`src/readers/jsonstream.rs` lines 16-27). -/
structure JsonStreamReader where
  file_path : String
  _iterator : Option IterCell
  _initialized : Bool

/-- The `JsonStreamReader::init` method (`src/readers/jsonstream.rs` lines
35-45): open the file (an `IoError` if that fails) and store the stream
iterator behind a fresh, unpoisoned lock. -/
def JsonStreamReader.init (s : JsonStreamReader) (fs : FS) :
    Except ReaderError JsonStreamReader :=
  match fs s.file_path with
  | none => Except.error ReaderError.ioError
  | some content =>
    Except.ok { s with _iterator := some {
      poisoned := false, items := jsonStreamParse content } }

/-- The tail of `JsonStreamReader::read_item` (`src/readers/jsonstream.rs`
lines 74-84): the `let Some(iterator) = ... else` fallback, then the lock
acquisition (an `InitializationError` when poisoned) and one `next()` on the
iterator, mapping parse errors into `ReaderError`. -/
def JsonStreamReader.readFromIterator (s : JsonStreamReader) :
    Option (Except ReaderError Value) × JsonStreamReader :=
  match s._iterator with
  | none =>
    (some (Except.error (ReaderError.initializationError ("JsonStreamReader not initialized"))), s)
  | some cell =>
    if cell.poisoned then
      (some (Except.error (ReaderError.initializationError ("Mutex lock poisoned"))), s)
    else
      match cell.items with
      | [] => (none, s)
      | item :: rest =>
        (some (match item with
          | Except.ok v => Except.ok v
          | Except.error _ => Except.error ReaderError.jsonError),
         { s with _iterator := some { cell with items := rest } })

/-- The `JsonStreamReader::read_item` method (`src/readers/jsonstream.rs`
lines 61-84): when the iterator is absent, try `init`; on failure set
`_initialized` and return the error (the flag is never consulted, so this
happens on every failing call); otherwise read from the shared iterator. -/
def JsonStreamReader.read_item (s : JsonStreamReader) (fs : FS) :
    Option (Except ReaderError Value) × JsonStreamReader :=
  match s._iterator with
  | none =>
    match JsonStreamReader.init s fs with
    | Except.error e => (some (Except.error e), { s with _initialized := true })
    | Except.ok s2 => JsonStreamReader.readFromIterator s2
  | some _ => JsonStreamReader.readFromIterator s

/-- Results of `n` successive `read_item` calls on a `JsonStreamReader`,
against a fixed file system. -/
def jsonRun : Nat → JsonStreamReader → FS → List (Option (Except ReaderError Value))
  | 0, _, _ => []
  | n + 1, s, fs =>
    let (r, s2) := JsonStreamReader.read_item s fs
    r :: jsonRun n s2 fs

/-- A file system on which every open fails. -/
def missingFS : FS := fun _ => none

/-- Running the reader from an already built internal row reader yields one
result per remaining row, in order, then end-of-stream. -/
theorem csvRun_from_handle (fs : FS) (d : List Nat) (fx : Bool) (p : String) (ini : Bool)
    (headers : List (List Nat)) (hfx : Bool) (rows : List (List (List Nat))) :
    csvRun (rows.length + 1) ⟨d, fx, p, some ⟨headers, rows, hfx⟩, ini⟩ fs
      = rows.map (fun r => some (rowResult headers hfx r)) ++ [none] := by
  induction rows with
  | nil => rfl
  | cons row rest ih =>
    have hstep : csvRun (rest.length + 1 + 1) (⟨d, fx, p, some ⟨headers, row :: rest, hfx⟩, ini⟩ : CsvReader) fs
        = some (rowResult headers hfx row)
          :: csvRun (rest.length + 1) (⟨d, fx, p, some ⟨headers, rest, hfx⟩, ini⟩ : CsvReader) fs := rfl
    simpa [hstep] using ih

/-- A successful lazy initialization on the first call: reading from the
uninitialized reader behaves like reading from the reader whose internal
handle holds the parsed header and data rows. -/
theorem csvRun_init (fs : FS) (d : List Nat) (fx : Bool) (p : String) (ini : Bool)
    (content : List Nat) (header : List (List Nat)) (rows : List (List (List Nat)))
    (h1 : fs p = some content) (h2 : csvParseConfig d content = header :: rows) (n : Nat) :
    csvRun (n + 1) ⟨d, fx, p, none, ini⟩ fs
      = csvRun (n + 1) ⟨d, fx, p, some ⟨header, rows, fx⟩, ini⟩ fs := by
  have hinit : CsvReader.init_reader ⟨d, fx, p, none, ini⟩ fs
      = Except.ok (⟨d, fx, p, some ⟨header, rows, fx⟩, ini⟩ : CsvReader) := by
    unfold CsvReader.init_reader
    simp [h1, h2]
  have hread : CsvReader.read_item ⟨d, fx, p, none, ini⟩ fs
      = CsvReader.read_item ⟨d, fx, p, some ⟨header, rows, fx⟩, ini⟩ fs := by
    unfold CsvReader.read_item
    rw [hinit]
  simp [csvRun, hread]

/-- C4: the delimited-text reader's row splitting uses only the first byte of
the configured delimiter value; an empty delimiter value defaults to the
comma byte 44. -/
theorem c4_delimiter_first_byte :
    (∀ (b : Nat) (rest : List Nat), effectiveDelimiterByte (b :: rest) = b) ∧
    effectiveDelimiterByte [] = 44 ∧
    (∀ (b : Nat) (rest : List Nat) (content : List Nat),
      csvParseConfig (b :: rest) content = csvParseConfig [b] content) ∧
    (∀ content : List Nat, csvParseConfig [] content = csvParseConfig [44] content) :=
  ⟨fun _ _ => rfl, rfl, fun _ _ _ => rfl, fun _ => rfl⟩

/-- C3: field coercion is the pure function that sends numeral text to
`Number`, exactly the literals `true` and `false` to `Bool`, and all other
text, the empty string included, to `String` with the text unchanged. -/
theorem c3_coercion_pure_map (f : List Nat) :
    ((isIntNumeral f || isFloatNumeral f) = true → ∃ n, coerceField f = Value.num n) ∧
    (isIntNumeral f = true → coerceField f = Value.num (JNum.int (intNumeralVal f))) ∧
    (f = ascii ("true") → coerceField f = Value.bool true) ∧
    (f = ascii ("false") → coerceField f = Value.bool false) ∧
    ((isIntNumeral f || isFloatNumeral f) = false → f ≠ ascii ("true") → f ≠ ascii ("false") →
      coerceField f = Value.str f) ∧
    (f = [] → coerceField f = Value.str f) ∧
    (∀ g : List Nat, f = g → coerceField f = coerceField g) := by
  refine ⟨?_, ?_, ?_, ?_, ?_, ?_, ?_⟩
  · intro h
    unfold coerceField
    cases hi : isIntNumeral f with
    | true => exact ⟨JNum.int (intNumeralVal f), by simp [hi]⟩
    | false =>
      have hf : isFloatNumeral f = true := by
        cases hf2 : isFloatNumeral f
        · rw [hi, hf2] at h
          exact absurd h (by decide)
        · rfl
      exact ⟨floatNumeralVal f, by simp [hi, hf]⟩
  · intro hi
    unfold coerceField
    simp [hi]
  · intro h
    subst h
    rfl
  · intro h
    subst h
    rfl
  · intro h ht hf
    have hi : isIntNumeral f = false := by
      cases hi2 : isIntNumeral f
      · rfl
      · rw [hi2] at h
        exact absurd h (by simp)
    have hfl : isFloatNumeral f = false := by
      cases hf2 : isFloatNumeral f
      · rfl
      · rw [hi, hf2] at h
        exact absurd h (by decide)
    unfold coerceField
    simp [hi, hfl, ht, hf]
  · intro h
    subst h
    rfl
  · intro g h
    rw [h]

/-- Witness for C3: concrete evaluations of the coercion at numeral text,
empty text and ordinary text. -/
theorem c3_coercion_pure_map_witness :
    coerceField (ascii ("8419000")) = Value.num (JNum.int (intNumeralVal (ascii ("8419000")))) ∧
    coerceField (ascii ("true")) = Value.bool true ∧
    coerceField [] = Value.str [] ∧
    coerceField (ascii ("AK")) = Value.str (ascii ("AK")) :=
  ⟨(c3_coercion_pure_map (ascii ("8419000"))).2.1 (by decide),
   (c3_coercion_pure_map (ascii ("true"))).2.2.1 rfl,
   (c3_coercion_pure_map []).2.2.2.2.2.1 rfl,
   (c3_coercion_pure_map (ascii ("AK"))).2.2.2.2.1 (by decide) (by decide) (by decide)⟩

/-- C6: for a well-formed delimited file with a header row and N data rows
each matching the header's field count, successive `read_item` calls yield
exactly the N records, in file order, followed by end-of-stream; the header
row supplies the field names and is never returned as a record. -/
theorem c6_stream_records_then_end (d : List Nat) (fx : Bool) (p : String) (fs : FS)
    (content : List Nat) (header : List (List Nat)) (rows : List (List (List Nat)))
    (h1 : fs p = some content) (h2 : csvParseConfig d content = header :: rows)
    (h3 : ∀ r ∈ rows, r.length = header.length) :
    csvRun (rows.length + 1) ⟨d, fx, p, none, false⟩ fs
      = rows.map (fun r => some (Except.ok (Value.obj (zipRecord header r)))) ++ [none] := by
  rw [csvRun_init fs d fx p false content header rows h1 h2 rows.length]
  rw [csvRun_from_handle fs d fx p false header fx rows]
  have hmap : rows.map (fun r => some (rowResult header fx r))
      = rows.map (fun r => some (Except.ok (Value.obj (zipRecord header r)))) := by
    apply List.map_congr_left
    intro r hr
    unfold rowResult
    rw [if_pos (Or.inr (h3 r hr))]
  rw [hmap]

/-- Witness for C6: a concrete comma-delimited file with two data rows yields
the two records then end-of-stream. -/
theorem c6_stream_records_then_end_witness :
    csvRun 3 ⟨[44], false, "t.csv", none, false⟩ (fun _ => some (ascii ("a,b\n1,2\n3,4\n")))
      = [some (Except.ok (Value.obj [([97], Value.num (JNum.int 1)), ([98], Value.num (JNum.int 2))])),
         some (Except.ok (Value.obj [([97], Value.num (JNum.int 3)), ([98], Value.num (JNum.int 4))])),
         none] := by
  have h := c6_stream_records_then_end [44] false "t.csv" (fun _ => some (ascii ("a,b\n1,2\n3,4\n")))
    (ascii ("a,b\n1,2\n3,4\n")) [[97], [98]] [[[49], [50]], [[51], [52]]] rfl (by decide) (by decide)
  exact h.trans rfl

/-- C5: with `flexible` set, every data row yields exactly one (successful)
result, rows with mismatched field counts included; without `flexible`, each
mismatched row yields one recoverable error and iteration continues with the
following rows, ending in end-of-stream either way. -/
theorem c5_flexible_row_results (d : List Nat) (fx : Bool) (p : String) (fs : FS)
    (content : List Nat) (header : List (List Nat)) (rows : List (List (List Nat)))
    (h1 : fs p = some content) (h2 : csvParseConfig d content = header :: rows) :
    (fx = true →
      csvRun (rows.length + 1) ⟨d, fx, p, none, false⟩ fs
        = rows.map (fun r => some (Except.ok (Value.obj (zipRecord header r)))) ++ [none]) ∧
    (fx = false →
      csvRun (rows.length + 1) ⟨d, fx, p, none, false⟩ fs
        = rows.map (fun r =>
            if r.length = header.length then
              some (Except.ok (Value.obj (zipRecord header r)))
            else
              some (Except.error ReaderError.csvError)) ++ [none]) := by
  have hbase : csvRun (rows.length + 1) ⟨d, fx, p, none, false⟩ fs
      = rows.map (fun r => some (rowResult header fx r)) ++ [none] := by
    rw [csvRun_init fs d fx p false content header rows h1 h2 rows.length]
    exact csvRun_from_handle fs d fx p false header fx rows
  constructor
  · intro hfx
    subst hfx
    rw [hbase]
    have : rows.map (fun r => some (rowResult header true r))
        = rows.map (fun r => some (Except.ok (Value.obj (zipRecord header r)))) := by
      apply List.map_congr_left
      intro r _
      unfold rowResult
      rw [if_pos (Or.inl rfl)]
    rw [this]
  · intro hfx
    subst hfx
    rw [hbase]
    have : rows.map (fun r => some (rowResult header false r))
        = rows.map (fun r =>
            if r.length = header.length then
              some (Except.ok (Value.obj (zipRecord header r)))
            else
              some (Except.error ReaderError.csvError)) := by
      apply List.map_congr_left
      intro r _
      unfold rowResult
      by_cases hlen : r.length = header.length
      · rw [if_pos (Or.inr hlen), if_pos hlen]
      · rw [if_neg ?_, if_neg hlen]
        intro hc
        rcases hc with hc | hc
        · exact absurd hc (by decide)
        · exact hlen hc
    rw [this]

/-- Witness for C5: a non-flexible reader over a file whose first data row
has an extra field yields one recoverable error for that row, then the
well-formed row's record, then end-of-stream. -/
theorem c5_flexible_row_results_witness :
    csvRun 3 ⟨[44], false, "m.csv", none, false⟩ (fun _ => some (ascii ("a,b\n1,2,3\n4,5\n")))
      = [some (Except.error ReaderError.csvError),
         some (Except.ok (Value.obj [([97], Value.num (JNum.int 4)), ([98], Value.num (JNum.int 5))])),
         none] := by
  have h := (c5_flexible_row_results [44] false "m.csv" (fun _ => some (ascii ("a,b\n1,2,3\n4,5\n")))
    (ascii ("a,b\n1,2,3\n4,5\n")) [[97], [98]] [[[49], [50], [51]], [[52], [53]]] rfl (by decide)).2 rfl
  exact h.trans rfl

/-- Every successful result produced by the internal row reader step is an
`Object` record. -/
theorem readFromReader_ok (s : CsvReader) (v : Value)
    (h : (CsvReader.readFromReader s).1 = some (Except.ok v)) :
    ∃ m, v = Value.obj m := by
  cases s with
  | mk d fx p rd ini =>
    cases rd with
    | none => simp [CsvReader.readFromReader] at h
    | some h0 =>
      cases h0 with
      | mk hd rws fl =>
        cases rws with
        | nil => simp [CsvReader.readFromReader, CsvHandle.next] at h
        | cons row rest =>
          simp [CsvReader.readFromReader, CsvHandle.next] at h
          unfold rowResult at h
          by_cases hc : fl = true ∨ row.length = hd.length
          · rw [if_pos hc] at h
            exact ⟨zipRecord hd row, by injection h with h2; exact h2.symm⟩
          · rw [if_neg hc] at h
            cases h

/-- C9: every successful record returned by the delimited-text reader's
`read_item` is a `Value` of the `Object` variant. -/
theorem c9_csv_records_are_objects (s : CsvReader) (fs : FS) (v : Value) (s2 : CsvReader)
    (h : CsvReader.read_item s fs = (some (Except.ok v), s2)) :
    ∃ m, v = Value.obj m := by
  cases s with
  | mk d fx p rd ini =>
    cases rd with
    | some h0 =>
      apply readFromReader_ok ⟨d, fx, p, some h0, ini⟩ v
      have h2 : CsvReader.read_item ⟨d, fx, p, some h0, ini⟩ fs
          = CsvReader.readFromReader ⟨d, fx, p, some h0, ini⟩ := rfl
      rw [h2] at h
      rw [h]
    | none =>
      cases hinit : CsvReader.init_reader ⟨d, fx, p, none, ini⟩ fs with
      | error e =>
        have h2 : CsvReader.read_item ⟨d, fx, p, none, ini⟩ fs
            = if ini then (none, ⟨d, fx, p, none, ini⟩)
              else (some (Except.error e), ⟨d, fx, p, none, true⟩) := by
          unfold CsvReader.read_item
          rw [hinit]
        rw [h2] at h
        cases ini with
        | true => simp at h
        | false => simp at h
      | ok s3 =>
        have h2 : CsvReader.read_item ⟨d, fx, p, none, ini⟩ fs
            = CsvReader.readFromReader s3 := by
          unfold CsvReader.read_item
          rw [hinit]
        rw [h2] at h
        apply readFromReader_ok s3 v
        rw [h]

/-- Witness for C9: a concrete successful read, whose record is the object
mapping the header name to the coerced field value. -/
theorem c9_csv_records_are_objects_witness :
    ∃ m, Value.obj [([97], Value.num (JNum.int 1))] = Value.obj m :=
  c9_csv_records_are_objects ⟨[44], false, "w.csv", some ⟨[[97]], [[[49]]], false⟩, false⟩
    missingFS (Value.obj [([97], Value.num (JNum.int 1))])
    ⟨[44], false, "w.csv", some ⟨[[97]], [], false⟩, false⟩ rfl

/-- C10: the fallback branch of `read_item` that reports
`InitializationError("Failed to initialize reader")` is unreachable:
`init_reader` always leaves `_reader` set when it succeeds, and `read_item`
returns before that match when it fails, so no call ever produces that
error. -/
theorem c10_fallback_unreachable :
    (∀ (s : CsvReader) (fs : FS) (s2 : CsvReader),
      CsvReader.init_reader s fs = Except.ok s2 → s2._reader.isSome = true) ∧
    (∀ (s : CsvReader) (fs : FS),
      (CsvReader.read_item s fs).1
        ≠ some (Except.error (ReaderError.initializationError ("Failed to initialize reader")))) := by
  constructor
  · intro s fs s2 h
    unfold CsvReader.init_reader at h
    cases hfp : fs s.file_path with
    | none =>
      rw [hfp] at h
      cases h
    | some content =>
      rw [hfp] at h
      injection h with h2
      rw [← h2]
      rfl
  · intro s fs
    cases s with
    | mk d fx p rd ini =>
      cases rd with
      | some h0 =>
        cases h0 with
        | mk hd rws fl =>
          cases rws with
          | nil =>
            simp [CsvReader.read_item, CsvReader.readFromReader, CsvHandle.next]
          | cons row rest =>
            simp [CsvReader.read_item, CsvReader.readFromReader, CsvHandle.next]
            unfold rowResult
            by_cases hc : fl = true ∨ row.length = hd.length
            · rw [if_pos hc]
              simp
            · rw [if_neg hc]
              simp
      | none =>
        cases hinit : CsvReader.init_reader ⟨d, fx, p, none, ini⟩ fs with
        | error e =>
          have he : e = ReaderError.ioError := by
            unfold CsvReader.init_reader at hinit
            cases hfp : fs p with
            | none =>
              rw [hfp] at hinit
              injection hinit with h2
              exact h2.symm
            | some content =>
              rw [hfp] at hinit
              cases hinit
          have h2 : CsvReader.read_item ⟨d, fx, p, none, ini⟩ fs
              = if ini then (none, ⟨d, fx, p, none, ini⟩)
                else (some (Except.error e), ⟨d, fx, p, none, true⟩) := by
            unfold CsvReader.read_item
            rw [hinit]
          rw [h2, he]
          cases ini with
          | true => simp
          | false => simp
        | ok s3 =>
          have h2 : CsvReader.read_item ⟨d, fx, p, none, ini⟩ fs
              = CsvReader.readFromReader s3 := by
            unfold CsvReader.read_item
            rw [hinit]
          rw [h2]
          have hsome : s3._reader.isSome = true := by
            unfold CsvReader.init_reader at hinit
            cases hfp : fs p with
            | none =>
              rw [hfp] at hinit
              cases hinit
            | some content =>
              rw [hfp] at hinit
              injection hinit with h3
              rw [← h3]
              rfl
          cases s3 with
          | mk d3 fx3 p3 rd3 ini3 =>
            cases rd3 with
            | none => simp at hsome
            | some h3 =>
              cases h3 with
              | mk hd rws fl =>
                cases rws with
                | nil =>
                  simp [CsvReader.readFromReader, CsvHandle.next]
                | cons row rest =>
                  simp [CsvReader.readFromReader, CsvHandle.next]
                  unfold rowResult
                  by_cases hc : fl = true ∨ row.length = hd.length
                  · rw [if_pos hc]
                    simp
                  · rw [if_neg hc]
                    simp

/-- Witness for C10: a concrete successful initialization leaves the internal
reader set. -/
theorem c10_fallback_unreachable_witness :
    ((⟨[44], false, "w.csv", some ⟨[[97]], [[[49]]], false⟩, false⟩ : CsvReader))._reader.isSome
      = true :=
  c10_fallback_unreachable.1 ⟨[44], false, "w.csv", none, false⟩
    (fun _ => some (ascii ("a\n1\n")))
    ⟨[44], false, "w.csv", some ⟨[[97]], [[[49]]], false⟩, false⟩ rfl

/-- Reading from a reader whose shared cursor's lock is poisoned reports the
fatal lock error and leaves the reader state unchanged. -/
theorem poisoned_read (s : JsonStreamReader) (fs : FS) (cell : IterCell)
    (h1 : s._iterator = some cell) (h2 : cell.poisoned = true) :
    JsonStreamReader.read_item s fs
      = (some (Except.error (ReaderError.initializationError ("Mutex lock poisoned"))), s) := by
  cases s with
  | mk p it ini =>
    simp only at h1
    subst h1
    have h3 : JsonStreamReader.read_item ⟨p, some cell, ini⟩ fs
        = JsonStreamReader.readFromIterator ⟨p, some cell, ini⟩ := rfl
    rw [h3]
    unfold JsonStreamReader.readFromIterator
    simp [h2]

/-- C8: once the JSON-stream reader's shared cursor exists and its lock is
poisoned, every future `read_item` call returns the fatal
`InitializationError` for the poisoned lock — never a record and never
end-of-stream. -/
theorem c8_poisoned_lock_fatal (s : JsonStreamReader) (fs : FS) (cell : IterCell)
    (h1 : s._iterator = some cell) (h2 : cell.poisoned = true) (n : Nat) :
    jsonRun n s fs
      = List.replicate n
          (some (Except.error (ReaderError.initializationError ("Mutex lock poisoned")))) := by
  induction n with
  | zero => rfl
  | succ n ih =>
    rw [List.replicate_succ]
    have hread := poisoned_read s fs cell h1 h2
    simp [jsonRun, hread, ih]

/-- Witness for C8: two successive calls on a concrete poisoned reader both
report the poisoned-lock error. -/
theorem c8_poisoned_lock_fatal_witness :
    jsonRun 2 ⟨"p.json", some ⟨true, []⟩, false⟩ missingFS
      = List.replicate 2
          (some (Except.error (ReaderError.initializationError ("Mutex lock poisoned")))) :=
  c8_poisoned_lock_fatal ⟨"p.json", some ⟨true, []⟩, false⟩ missingFS ⟨true, []⟩ rfl rfl 2

/-- Byte content of the example structure-delimited JSON file
(`examples/products_stream.json`): two JSON objects, one per line. -/
def productsStreamContent : List Nat :=
  ascii ("\x7b\"name\":\"My super product\",\"price\":10.5,\"inStock\":true\x7d\n\x7b\"name\":\"My other product\",\"price\":20.0,\"inStock\":false\x7d\n")

/-- A file system holding the example JSON stream file. -/
def productsFS : FS := fun _ => some productsStreamContent

/-- C7: on the file holding the two example JSON objects, the JSON-stream
reader yields exactly the two objects, verbatim-typed (`10.5` and `20.0` as
numbers, `true` and `false` as booleans, names as strings), in file order,
then end-of-stream. -/
theorem c7_jsonstream_two_objects :
    jsonRun 3 ⟨"products_stream.json", none, false⟩ productsFS
      = [some (Except.ok (Value.obj
           [(ascii ("name"), Value.str (ascii ("My super product"))),
            (ascii ("price"), Value.num (JNum.dec 105 (-1))),
            (ascii ("inStock"), Value.bool true)])),
         some (Except.ok (Value.obj
           [(ascii ("name"), Value.str (ascii ("My other product"))),
            (ascii ("price"), Value.num (JNum.dec 200 (-1))),
            (ascii ("inStock"), Value.bool false)])),
         none] := rfl

/-- C1 divergence: a `JsonStreamReader` whose file stays un-openable returns
an error result on the second `read_item` call as well (the `_initialized`
flag is set but never consulted in `src/readers/jsonstream.rs` lines 61-72),
where the claim requires end-of-stream after the single first error. -/
theorem c1_jsonstream_second_call_errors :
    (JsonStreamReader.read_item ⟨"missing.json", none, false⟩ missingFS).1
      = some (Except.error ReaderError.ioError) ∧
    (JsonStreamReader.read_item
        (JsonStreamReader.read_item ⟨"missing.json", none, false⟩ missingFS).2 missingFS).1
      = some (Except.error ReaderError.ioError) ∧
    (JsonStreamReader.read_item
        (JsonStreamReader.read_item ⟨"missing.json", none, false⟩ missingFS).2 missingFS).1
      ≠ none :=
  ⟨rfl, rfl, fun h => Option.noConfusion h⟩

/-- A file system on which the CSV file has become openable, with a header
row and one data row. -/
def appearingFS : FS := fun _ => some (ascii ("a,b\n1,2\n"))

/-- C2 divergence: after `CsvReader::read_item` has surfaced the open failure
once, the next call runs `init_reader` again (`src/readers/csv.rs` lines
88-101); if the file has become openable in between, that call opens it and
returns the first record instead of the end-of-stream the claim requires. -/
theorem c2_csv_reopens_after_failure :
    (CsvReader.read_item ⟨[44], false, "f.csv", none, false⟩ missingFS).1
      = some (Except.error ReaderError.ioError) ∧
    (CsvReader.read_item
        (CsvReader.read_item ⟨[44], false, "f.csv", none, false⟩ missingFS).2 appearingFS).1
      = some (Except.ok (Value.obj
          [([97], Value.num (JNum.int 1)), ([98], Value.num (JNum.int 2))])) ∧
    (CsvReader.read_item
        (CsvReader.read_item ⟨[44], false, "f.csv", none, false⟩ missingFS).2 appearingFS).1
      ≠ none :=
  ⟨rfl, rfl, fun h => Option.noConfusion h⟩
